import Mathlib

/-!
Verification of the blandmockapi endpoint dispatch engine.

Go strings are modelled as `List Char` (the sources only handle ASCII
paths, methods and type signatures, where Go's byte indexing and Lean's
character lists coincide).  Each definition mirrors one function of the
repository: `matchesPattern`, `Router.findMatchingPattern` and the
dispatch handlers from internal/router/router.go, `Handler` /
`processResponse` / `HealthHandler` / `NotFoundHandler` from
internal/router/handler.go, and `parseType` / `resolveType` /
`createResolver` / `buildSchema` from the graphql handler.  The JSON
codec of encoding/json and the graphql-go execution engine are external
collaborators and enter as parameters.
-/

namespace BlandMock

abbrev Str := List Char

def strOf (s : String) : Str := s.data

/-- Go strings.HasPrefix(s, pre): pre is a literal prefix of s. -/
def goHasPre : Str → Str → Bool
  | _, [] => true
  | [], _ :: _ => false
  | c :: s, p :: ps => c == p && goHasPre s ps

/-- Go strings.HasSuffix(s, suf): suf is a literal suffix of s. -/
def goHasSuf (s suf : Str) : Bool :=
  goHasPre s.reverse suf.reverse

/-- Go strings.TrimSuffix(s, suf): drop one trailing occurrence of suf. -/
def trimSuf (s suf : Str) : Str :=
  if goHasSuf s suf then s.take (s.length - suf.length) else s

/-- internal/router/router.go matchesPattern: exact match, trailing-slash
equivalence, then directory-style prefix for patterns ending in "/". -/
def matchesPattern (pattern path : Str) : Bool :=
  if pattern == path then true
  else if trimSuf pattern (strOf "/") == trimSuf path (strOf "/") then true
  else if goHasSuf pattern (strOf "/") && goHasPre path pattern then true
  else false

/-- Go strings.ToUpper (the sources only pass ASCII method names). -/
def toUpperStr (s : Str) : Str := s.map Char.toUpper

/-- Go strings.Join(xs, sep). -/
def joinSep (sep : Str) : List Str → Str
  | [] => []
  | [x] => x
  | x :: y :: xs => x ++ sep ++ joinSep sep (y :: xs)

/-- Go strings.ReplaceAll(s, pat, rep): one left-to-right pass over s,
replacements are not rescanned.  The callers only pass the fixed non-empty
template tokens as pat, so the empty-pattern case is immaterial. -/
def replaceAll (s pat rep : Str) : Str :=
  if h : pat = [] then s
  else
    match s with
    | [] => []
    | c :: rest =>
      if goHasPre (c :: rest) pat then rep ++ replaceAll ((c :: rest).drop pat.length) pat rep
      else c :: replaceAll rest pat rep
termination_by s.length
decreasing_by
  · have hp : 0 < pat.length := List.length_pos.mpr h
    simp only [List.length_drop]
    simp
    omega
  · simp

/-- Go %q applied to one string: strconv.Quote (escaping written out only
for quote and backslash, which covers every string the router quotes). -/
def goQuoteChar (c : Char) : Str :=
  if c = '"' ∨ c = '\\' then ['\\', c] else [c]

def goQuote (s : Str) : Str :=
  '"' :: (s.map goQuoteChar).flatten ++ ['"']

/-- Go fmt %q applied to a []string: the elements are each quoted and then
joined with single spaces inside brackets — "[" q1 " " q2 ... "]". -/
def goQuoteSlice (xs : List Str) : Str :=
  '[' :: (joinSep (strOf " ") (xs.map goQuote) ++ [']'])

/-- An HTTP request as the handlers consume it: method, URL path, parsed
query (key to list of values, as url.Values), and raw body. -/
structure Request where
  method : Str
  path : Str
  query : List (Str × List Str)
  body : Str
deriving Repr, DecidableEq

/-- The response a handler writes: status code, headers, body. -/
structure Response where
  status : Int
  headers : List (Str × Str)
  body : Str
deriving Repr, DecidableEq

/-- Association-list lookup, modelling Go map indexing. -/
def lookupA {β : Type} (m : List (Str × β)) (k : Str) : Option β :=
  match m with
  | [] => none
  | (k', v) :: rest => if k' = k then some v else lookupA rest k

/-- Association-list insert-or-overwrite, modelling Go map assignment. -/
def insertA {β : Type} (m : List (Str × β)) (k : Str) (v : β) : List (Str × β) :=
  match m with
  | [] => [(k, v)]
  | (k', v') :: rest => if k' = k then (k, v) :: rest else (k', v') :: insertA rest k v

def setHeader (hs : List (Str × Str)) (k v : Str) : List (Str × Str) := insertA hs k v

/-- Go http.Header.Get: empty string when the header is absent. -/
def getHeader (hs : List (Str × Str)) (k : Str) : Str := (lookupA hs k).getD []

/-- internal/models EndpointConfig. -/
structure EndpointConfig where
  path : Str
  method : Str
  status : Int
  response : Str
  headers : List (Str × Str)
  delay : Int
  description : Str
deriving Repr, DecidableEq

/-- Router state (internal/router/router.go Router): the registration-order
endpoint slice, the path → method → endpoint table, and the GraphQL path.
The embedded http.ServeMux is an external collaborator and is not part of
the state; dispatch models the code around it. -/
structure Router where
  endpoints : List EndpointConfig
  pathMethods : List (Str × List (Str × EndpointConfig))
  graphqlPath : Str
  hasGraphQL : Bool
deriving Repr, DecidableEq

/-- router.New(). -/
def Router.new : Router := ⟨[], [], [], false⟩

/-- Router.RegisterEndpoint: reject an empty path, default the method to
GET, uppercase it, create the inner table on first sight of the path
(where the Go code also installs the mux handler), store the endpoint
under (path, method) overwriting any previous entry, and append to the
registration-order slice. -/
def registerEndpoint (rt : Router) (ep0 : EndpointConfig) : Except Str Router :=
  if ep0.path = [] then Except.error (strOf "endpoint path cannot be empty")
  else
    let m0 := if ep0.method = [] then strOf "GET" else ep0.method
    let ep := { ep0 with method := toUpperStr m0 }
    let inner := (lookupA rt.pathMethods ep.path).getD []
    Except.ok { rt with
      pathMethods := insertA rt.pathMethods ep.path (insertA inner ep.method ep),
      endpoints := rt.endpoints ++ [ep] }

/-- Router.RegisterGraphQL (handler installation on the mux not modelled). -/
def registerGraphQL (rt : Router) (path : Str) : Router :=
  let path := if path = [] then strOf "/graphql" else path
  { rt with graphqlPath := path, hasGraphQL := true }

/-- handler.go processResponse.  The encoding/json codec is an external
collaborator, passed as parse (nil-on-invalid unmarshal) and marshal
(compact re-serialization).  Query parameters are substituted by folding
over the parsed query in order (Go iterates the url.Values map). -/
def processResponse {J : Type} (parse : Str → Option J) (marshal : J → Str)
    (response : Str) (r : Request) : Str :=
  let s1 := replaceAll response (strOf "\x7b\x7bpath\x7d\x7d") r.path
  let s2 := replaceAll s1 (strOf "\x7b\x7bmethod\x7d\x7d") r.method
  let s3 := r.query.foldl (fun acc kv =>
    match kv.2 with
    | [] => acc
    | v :: _ => replaceAll acc (strOf "\x7b\x7bquery." ++ kv.1 ++ strOf "\x7d\x7d") v) s2
  if r.method = strOf "POST" ∨ r.method = strOf "PUT" ∨ r.method = strOf "PATCH" then
    match parse r.body with
    | some j => replaceAll s3 (strOf "\x7b\x7bbody\x7d\x7d") (marshal j)
    | none => s3
  else s3

/-- handler.go Handler: set configured headers, default Content-Type,
default a zero status to 200, template the body.  The delay only
suspends the goroutine and has no effect on the written response. -/
def endpointHandler {J : Type} (parse : Str → Option J) (marshal : J → Str)
    (endpoint : EndpointConfig) (r : Request) : Response :=
  let hs := endpoint.headers.foldl (fun acc kv => setHeader acc kv.1 kv.2) []
  let hs := if getHeader hs (strOf "Content-Type") = []
            then setHeader hs (strOf "Content-Type") (strOf "application/json") else hs
  let status : Int := if endpoint.status = 0 then 200 else endpoint.status
  { status := status, headers := hs,
    body := processResponse parse marshal endpoint.response r }

/-- handler.go HealthHandler: unconditional 200 with a fixed JSON body,
no inspection of the request method or path. -/
def healthHandler (_r : Request) : Response :=
  { status := 200,
    headers := [(strOf "Content-Type", strOf "application/json")],
    body := strOf "\x7b\"status\":\"healthy\",\"service\":\"blandmockapi\"\x7d" }

/-- The 404 body of handler.go NotFoundHandler, naming path and method. -/
def notFoundBody (path method : Str) : Str :=
  strOf "\x7b\"error\":\"endpoint not found\",\"path\":\"" ++ path ++
    strOf "\",\"method\":\"" ++ method ++ strOf "\"\x7d"

/-- handler.go NotFoundHandler. -/
def notFoundHandler (r : Request) : Response :=
  { status := 404,
    headers := [(strOf "Content-Type", strOf "application/json")],
    body := notFoundBody r.path r.method }

/-- The 405 branch of Router.multiMethodHandler: the allowed methods are
collected from the method table (Go map iteration; modelled in table
order), the Allow header joins them with ", ", and the body is produced
by fmt.Sprintf with %q applied to the []string — which yields the
elements space-separated inside brackets. -/
def methodNotAllowedResponse (methodMap : List (Str × EndpointConfig)) (r : Request) : Response :=
  let allowed := methodMap.map (fun kv => kv.1)
  { status := 405,
    headers := [(strOf "Content-Type", strOf "application/json"),
                (strOf "Allow", joinSep (strOf ", ") allowed)],
    body := strOf "\x7b\"error\":\"method not allowed\",\"allowed\":" ++ goQuoteSlice allowed ++
      strOf ",\"received\":\"" ++ r.method ++ strOf "\"\x7d" }

/-- Router.multiMethodHandler, as invoked by the mux for the path it was
installed under: method-table lookup, 405 on a missing method, otherwise
the endpoint handler. -/
def multiMethodHandler {J : Type} (parse : Str → Option J) (marshal : J → Str)
    (rt : Router) (path : Str) (r : Request) : Response :=
  match lookupA rt.pathMethods path with
  | none => notFoundHandler r
  | some methodMap =>
    match lookupA methodMap r.method with
    | none => methodNotAllowedResponse methodMap r
    | some endpoint => endpointHandler parse marshal endpoint r

/-- Router.findMatchingPattern: the health path and the GraphQL path are
compared by exact string equality; only the registered endpoint slice is
scanned with matchesPattern, in registration order.  "" (the empty
string) signals no match. -/
def findMatchingPattern (rt : Router) (r : Request) : Str :=
  if r.path = strOf "/health" then strOf "/health"
  else if rt.hasGraphQL && r.path == rt.graphqlPath then rt.graphqlPath
  else
    match rt.endpoints.find? (fun ep => matchesPattern ep.path r.path) with
    | some ep => ep.path
    | none => []

/-- What Router.Handler does with a request: hand it to the wrapped
ServeMux when findMatchingPattern found any match, else answer 404
itself.  Which handler the mux then picks is the mux's own (external)
precedence rule, not part of this state. -/
inductive DispatchOutcome where
  | toMux
  | notFound (resp : Response)
deriving Repr, DecidableEq

/-- Router.Handler (router.go lines 115-126). -/
def routerHandler (rt : Router) (r : Request) : DispatchOutcome :=
  if findMatchingPattern rt r ≠ [] then DispatchOutcome.toMux
  else DispatchOutcome.notFound (notFoundHandler r)

/-- internal/models GraphQLType. -/
structure GraphQLType where
  name : Str
  fields : List (Str × Str)
  description : Str
deriving Repr, DecidableEq

/-- internal/models GraphQLQuery. -/
structure GraphQLQuery where
  name : Str
  returnType : Str
  args : List (Str × Str)
  response : Str
  description : Str
deriving Repr, DecidableEq

/-- internal/models GraphQLMutation (same shape as GraphQLQuery). -/
structure GraphQLMutation where
  name : Str
  returnType : Str
  args : List (Str × Str)
  response : Str
  description : Str
deriving Repr, DecidableEq

/-- internal/models GraphQLConfig. -/
structure GraphQLConfig where
  enabled : Bool
  path : Str
  types : List GraphQLType
  queries : List GraphQLQuery
  mutations : List GraphQLMutation
deriving Repr, DecidableEq

/-- The graphql-go output types the handler constructs: the five scalars,
list and non-null wrappers, and named object types. -/
inductive GType where
  | string
  | int
  | float
  | boolean
  | id
  | list (inner : GType)
  | nonNull (inner : GType)
  | object (name : Str) (fields : List (Str × GType))

/-- The type-signature descriptor of the spec: base name plus the two
wrapper flags stripped from the raw signature string. -/
structure TypeSignature where
  baseName : Str
  isList : Bool
  isNonNull : Bool
deriving Repr, DecidableEq

/-- The flag-stripping phase of Handler.parseType: drop a trailing '!'
(non-null), then strip a wrapping [...] when the remainder is longer
than two characters (list); what is left is the base name. -/
def parseTypeParts (typeStr : Str) : TypeSignature :=
  let p1 : Bool × Str :=
    if typeStr.length > 0 && typeStr.getLast? == some '!'
    then (true, typeStr.dropLast) else (false, typeStr)
  let p2 : Bool × Str :=
    if p1.2.length > 2 && p1.2.head? == some '[' && p1.2.getLast? == some ']'
    then (true, (p1.2.drop 1).dropLast) else (false, p1.2)
  ⟨p2.2, p2.1, p1.1⟩

/-- Handler.parseType: strip the wrappers, map the base name onto the
five scalars with String as the default for any other name, then re-apply
list and non-null wrappers in that order. -/
def parseType (typeStr : Str) : GType :=
  let sig := parseTypeParts typeStr
  let base : GType :=
    if sig.baseName = strOf "String" then GType.string
    else if sig.baseName = strOf "Int" then GType.int
    else if sig.baseName = strOf "Float" then GType.float
    else if sig.baseName = strOf "Boolean" then GType.boolean
    else if sig.baseName = strOf "ID" then GType.id
    else GType.string
  let base := if sig.isList then GType.list base else base
  if sig.isNonNull then GType.nonNull base else base

/-- Handler.resolveType.  The Option models the Go nil pointer: the
custom-type table hit, the recursive list case, and the parseType
fallback are all the branches of the source; parseType never yields nil,
so the inner nil test of the list branch falls through to the fallback
exactly as in the Go code. -/
def resolveType (types : List (Str × GType)) (typeName : Str) : Option GType :=
  match lookupA types typeName with
  | some t => some t
  | none =>
    if h : typeName.length > 2 ∧ typeName.head? = some '[' ∧ typeName.getLast? = some ']' then
      match resolveType types ((typeName.drop 1).dropLast) with
      | some inner => some (GType.list inner)
      | none => some (parseType typeName)
    else some (parseType typeName)
termination_by typeName.length
decreasing_by
  simp only [List.length_dropLast, List.length_drop]
  omega

/-- The custom-type table of Handler.buildSchema: every declared type
becomes an object whose fields are parsed with parseType (Go map keyed
by name, modelled as insert-or-overwrite in declaration order). -/
def buildTypes (tds : List GraphQLType) : List (Str × GType) :=
  tds.foldl (fun acc td =>
    insertA acc td.name
      (GType.object td.name (td.fields.map (fun fv => (fv.1, parseType fv.2))))) []

/-- One field of the root query/mutation object as buildSchema assembles
it: resolved return type, parsed argument types, and the canned response
payload the resolver closure captures. -/
structure BuiltField where
  name : Str
  type : GType
  description : Str
  args : List (Str × GType)
  responsePayload : Str

/-- One query loop iteration of buildSchema: resolve the return type,
falling back to String with a logged warning when resolution yields nil. -/
def buildQueryField (types : List (Str × GType)) (q : GraphQLQuery) : BuiltField × List Str :=
  let args := q.args.map (fun a => (a.1, parseType a.2))
  match resolveType types q.returnType with
  | some t => (⟨q.name, t, q.description, args, q.response⟩, [])
  | none =>
    (⟨q.name, GType.string, q.description, args, q.response⟩,
      [strOf "Warning: Unknown return type for query " ++ q.name])

/-- One mutation loop iteration of buildSchema (same fallback policy). -/
def buildMutationField (types : List (Str × GType)) (m : GraphQLMutation) :
    BuiltField × List Str :=
  let args := m.args.map (fun a => (a.1, parseType a.2))
  match resolveType types m.returnType with
  | some t => (⟨m.name, t, m.description, args, m.response⟩, [])
  | none =>
    (⟨m.name, GType.string, m.description, args, m.response⟩,
      [strOf "Warning: Unknown return type for mutation " ++ m.name])

/-- The assembled schema handed to graphql.NewSchema: the custom-type
table, the root query field map, the root mutation field map (present
only when at least one mutation was declared), and the warnings logged
on the way.  Whether graphql.NewSchema accepts this graph is the
engine's decision and depends only on its shape, never on the response
payloads. -/
structure BuiltSchema where
  types : List (Str × GType)
  queryFields : List (Str × BuiltField)
  mutationFields : Option (List (Str × BuiltField))
  warnings : List Str

/-- One iteration of buildSchema's query loop: insert the built field
into the root query field map and append any warning. -/
def qStep (types : List (Str × GType)) (acc : List (Str × BuiltField) × List Str)
    (q : GraphQLQuery) : List (Str × BuiltField) × List Str :=
  let fw := buildQueryField types q
  (insertA acc.1 q.name fw.1, acc.2 ++ fw.2)

/-- One iteration of buildSchema's mutation loop. -/
def mStep (types : List (Str × GType)) (acc : List (Str × BuiltField) × List Str)
    (m : GraphQLMutation) : List (Str × BuiltField) × List Str :=
  let fw := buildMutationField types m
  (insertA acc.1 m.name fw.1, acc.2 ++ fw.2)

/-- Handler.buildSchema. -/
def buildSchema (config : GraphQLConfig) : BuiltSchema :=
  let types := buildTypes config.types
  let qacc := config.queries.foldl (qStep types) (([] : List (Str × BuiltField)), ([] : List Str))
  let macc := config.mutations.foldl (mStep types) (([] : List (Str × BuiltField)), ([] : List Str))
  { types := types,
    queryFields := qacc.1,
    mutationFields := if config.mutations.length > 0 then some macc.1 else none,
    warnings := qacc.2 ++ macc.2 }

/-- A BuiltField with the response payload erased: exactly the data the
execution engine's schema validation sees. -/
structure FieldShape where
  name : Str
  type : GType
  args : List (Str × GType)

def shapeOf (f : BuiltField) : FieldShape := ⟨f.name, f.type, f.args⟩

/-- The response-independent part of a built schema. -/
def schemaShape (s : BuiltSchema) :
    List (Str × GType) × List (Str × FieldShape) × Option (List (Str × FieldShape)) :=
  (s.types, s.queryFields.map (fun p => (p.1, shapeOf p.2)),
    s.mutationFields.map (fun l => l.map (fun p => (p.1, shapeOf p.2))))

/-- Rewrite every canned response payload of a GraphQL configuration. -/
def mapResponses (f : Str → Str) (cfg : GraphQLConfig) : GraphQLConfig :=
  { cfg with
    queries := cfg.queries.map (fun q => { q with response := f q.response }),
    mutations := cfg.mutations.map (fun m => { m with response := f m.response }) }

/-- The TypeSignatureParser algorithm of the spec, in the spec's own
words: if the signature ends with '!' mark non-null and drop that
character; if the remainder starts with '[' and ends with ']' with
length greater than two, mark list and strip the two brackets; the rest
is the base name.  Kept separate from parseTypeParts (which mirrors the
Go index checks) so the two can be compared. -/
def specParseSignature (s : Str) : TypeSignature :=
  let p1 : Bool × Str :=
    if goHasSuf s (strOf "!") then (true, s.dropLast) else (false, s)
  let p2 : Bool × Str :=
    if goHasPre p1.2 (strOf "[") && goHasSuf p1.2 (strOf "]") && p1.2.length > 2
    then (true, (p1.2.drop 1).dropLast) else (false, p1.2)
  ⟨p2.2, p2.1, p1.1⟩

/-- The method normalization applied by Router.RegisterEndpoint: empty
defaults to GET, then uppercase. -/
def normMethod (m : Str) : Str := toUpperStr (if m = [] then strOf "GET" else m)

/-- Handler.createResolver: at every invocation, lazily unmarshal the
captured response string (codec external, as in processResponse); a
failed unmarshal is a resolver error, a successful one returns the
parsed value untouched.  The resolve params are accepted and ignored. -/
def createResolver {J : Type} (parse : Str → Option J) (responseJSON : Str)
    (_args : List (Str × J)) : Except Str J :=
  match parse responseJSON with
  | some v => Except.ok v
  | none => Except.error (strOf "invalid response JSON")

/-- The GraphQL request envelope Handler.ServeHTTP decodes. -/
structure GQLParams where
  query : Str
  operationName : Str
  variableValues : List (Str × Str)
deriving Repr, DecidableEq

/-- The engine's execution result: data plus the per-field errors array. -/
structure GQLResult where
  dataJSON : Str
  errors : List Str
deriving Repr, DecidableEq

/-- Handler.ServeHTTP: 405 for non-POST, 400 when the body does not
decode as the params envelope, otherwise run the engine and write its
envelope with the implicit 200 status (the Go code never calls
WriteHeader on this path).  Body decoding and execution are external
collaborators passed as functions. -/
def serveGraphQL (decodeBody : Str → Option GQLParams) (run : GQLParams → GQLResult)
    (encode : GQLResult → Str) (r : Request) : Response :=
  if r.method ≠ strOf "POST" then
    { status := 405, headers := [(strOf "Content-Type", strOf "application/json")],
      body := strOf "\x7b\"error\":\"GraphQL endpoint only accepts POST requests\"\x7d" }
  else
    match decodeBody r.body with
    | none =>
      { status := 400, headers := [(strOf "Content-Type", strOf "application/json")],
        body := strOf "\x7b\"error\":\"invalid request body\"\x7d" }
    | some p =>
      { status := 200, headers := [(strOf "Content-Type", strOf "application/json")],
        body := encode (run p) }

/-! Concrete instances of the external collaborators and fixtures used
to evaluate the model on specific inputs. -/

/-- A JSON codec that rejects every document (parse always nil). -/
def noJson : Str → Option Unit := fun _ => none

def unitMarshal : Unit → Str := fun _ => []

/-- A one-document instance of the external JSON codec: the string
\x7b"a": 1\x7d parses, and compact re-serialization drops its space;
every other string is invalid JSON. -/
def demoParse : Str → Option Str := fun s =>
  if s = strOf "\x7b\"a\": 1\x7d" then some (strOf "\x7b\"a\":1\x7d") else none

def demoMarshal : Str → Str := fun s => s

def usersGet : EndpointConfig :=
  ⟨strOf "/api/users", strOf "GET", 200, strOf "\x7b\"users\":[]\x7d", [], 0, []⟩

def usersPost : EndpointConfig :=
  ⟨strOf "/api/users", strOf "POST", 201, strOf "\x7b\"id\":1\x7d", [], 0, []⟩

/-- The router after registering GET and POST /api/users on a new router. -/
def rtUsers : Router :=
  match registerEndpoint Router.new usersGet with
  | Except.ok rt1 =>
    match registerEndpoint rt1 usersPost with
    | Except.ok rt2 => rt2
    | Except.error _ => rt1
  | Except.error _ => Router.new

def negStatusEndpoint : EndpointConfig :=
  ⟨strOf "/neg", strOf "GET", -1, strOf "ok", [], 0, []⟩

def deleteUsersReq : Request := ⟨strOf "DELETE", strOf "/api/users", [], []⟩

def getNegReq : Request := ⟨strOf "GET", strOf "/neg", [], []⟩

def healthSlashReq : Request := ⟨strOf "GET", strOf "/health/", [], []⟩

/-- GET /api/test?x=1 of the spec's templating scenario. -/
def scenarioReq : Request :=
  ⟨strOf "GET", strOf "/api/test", [(strOf "x", [strOf "1"])], []⟩

/-- The template of the spec's templating scenario,
\x7b"path":"\x7b\x7bpath\x7d\x7d","method":"\x7b\x7bmethod\x7d\x7d"\x7d. -/
def scenarioTemplate : Str :=
  strOf "\x7b\"path\":\"\x7b\x7bpath\x7d\x7d\",\"method\":\"\x7b\x7bmethod\x7d\x7d\"\x7d"

/-- The scenario's expected rendering for GET /api/test?x=1. -/
def scenarioExpected : Str :=
  strOf "\x7b\"path\":\"/api/test\",\"method\":\"GET\"\x7d"

def ep1w : EndpointConfig := ⟨strOf "/w", strOf "get", 200, strOf "one", [], 0, []⟩

def ep2w : EndpointConfig := ⟨strOf "/w", strOf "GET", 201, strOf "two", [], 0, []⟩

def getWReq : Request := ⟨strOf "GET", strOf "/w", [], []⟩

/-- A GraphQL configuration whose single query returns an undeclared
custom type. -/
def unknownCfg : GraphQLConfig :=
  ⟨true, strOf "/graphql",
    [],
    [⟨strOf "getThing", strOf "UnknownType", [], strOf "\x7b\x7d", []⟩],
    []⟩

theorem goHasPre_iff (s p : Str) : goHasPre s p = true ↔ p <+: s := by
  induction s generalizing p with
  | nil =>
    cases p with
    | nil => simp [goHasPre]
    | cons c cs => simp [goHasPre]
  | cons c s ih =>
    cases p with
    | nil => simp [goHasPre]
    | cons q qs =>
      simp only [goHasPre, Bool.and_eq_true, beq_iff_eq, ih]
      constructor
      · rintro ⟨rfl, t, rfl⟩
        exact ⟨t, rfl⟩
      · rintro ⟨t, ht⟩
        cases ht
        exact ⟨rfl, t, rfl⟩

theorem goHasSuf_iff (s p : Str) : goHasSuf s p = true ↔ p <:+ s := by
  rw [goHasSuf, goHasPre_iff]
  constructor
  · rintro ⟨t, ht⟩
    refine ⟨t.reverse, ?_⟩
    have := congrArg List.reverse ht
    simpa using this
  · rintro ⟨t, rfl⟩
    exact ⟨t.reverse, by simp⟩

/-- `matchesPattern` characterised by the three rules of the spec:
exact equality, equality after trimming one trailing slash from each
side, or pattern ending in "/" and being a literal prefix of the path. -/
theorem matchesPattern_iff (pattern path : Str) :
    matchesPattern pattern path = true ↔
      pattern = path ∨
      trimSuf pattern (strOf "/") = trimSuf path (strOf "/") ∨
      (goHasSuf pattern (strOf "/") = true ∧ goHasPre path pattern = true) := by
  unfold matchesPattern
  by_cases h1 : pattern = path
  · simp [h1]
  · by_cases h2 : trimSuf pattern (strOf "/") = trimSuf path (strOf "/")
    · simp [h1, h2]
    · by_cases h3 : goHasSuf pattern (strOf "/") = true ∧ goHasPre path pattern = true
      · simp [h1, h2, h3.1, h3.2]
      · have hb : (goHasSuf pattern (strOf "/") && goHasPre path pattern) = false := by
          cases hA : goHasSuf pattern (strOf "/") with
          | false => simp
          | true =>
            cases hB : goHasPre path pattern with
            | false => simp
            | true => exact absurd ⟨hA, hB⟩ h3
        simp [h1, h2, hb, h3]

theorem goHasPre_singleChar (s : Str) (c : Char) :
    goHasPre s [c] = (s.head? == some c) := by
  cases s with
  | nil => simp [goHasPre]
  | cons a t =>
    simp only [goHasPre, List.head?_cons]
    cases h : a == c <;> simp_all

theorem goHasSuf_singleChar (s : Str) (c : Char) :
    goHasSuf s [c] = (s.getLast? == some c) := by
  have h : goHasSuf s [c] = goHasPre s.reverse [c] := rfl
  rw [h, goHasPre_singleChar, List.head?_reverse]

theorem lengthGuard_getLast (s : Str) (c : Char) :
    (decide (s.length > 0) && s.getLast? == some c) = (s.getLast? == some c) := by
  cases s with
  | nil => simp
  | cons a t => simp

theorem bangCond_eq (s : Str) :
    (decide (s.length > 0) && (s.getLast? == some '!')) = goHasSuf s (strOf "!") := by
  rw [show strOf "!" = ['!'] from rfl, goHasSuf_singleChar, lengthGuard_getLast]

theorem bracketCond_eq (t : Str) :
    (decide (t.length > 2) && (t.head? == some '[') && (t.getLast? == some ']'))
      = (goHasPre t (strOf "[") && goHasSuf t (strOf "]") && decide (t.length > 2)) := by
  rw [show strOf "[" = ['['] from rfl, show strOf "]" = [']'] from rfl,
    goHasPre_singleChar, goHasSuf_singleChar]
  cases h1 : (t.head? == some '[') <;> cases h2 : (t.getLast? == some ']') <;>
    cases h3 : decide (t.length > 2) <;> rfl

/-- C6: the type-signature parser is total (a Lean function over all of
Str) and agrees everywhere with the algorithm as the spec words it —
trailing '!' marks non-null and is dropped, then a wrapping bracket pair
on a remainder longer than two characters marks list and is stripped,
and what is left is the base name; the two spec examples evaluate as
stated. -/
theorem C6_parse_type_signature :
    (∀ s : Str, parseTypeParts s = specParseSignature s) ∧
    parseTypeParts (strOf "[String]!") =
      { baseName := strOf "String", isList := true, isNonNull := true } ∧
    parseTypeParts (strOf "Int") =
      { baseName := strOf "Int", isList := false, isNonNull := false } := by
  refine ⟨?_, by decide, by decide⟩
  intro s
  unfold parseTypeParts specParseSignature
  simp only [bangCond_eq, bracketCond_eq]

/-- C5: matchesPattern holds exactly when one of the three ordered rules
applies — exact equality, equality after trimming one trailing slash
from each side, or a pattern ending in "/" that is a literal prefix of
the request path — and the three spec examples evaluate as stated. -/
theorem C5_matchesPattern_rules :
    (∀ pattern path : Str,
      matchesPattern pattern path = true ↔
        pattern = path ∨
        trimSuf pattern (strOf "/") = trimSuf path (strOf "/") ∨
        ((strOf "/") <:+ pattern ∧ pattern <+: path)) ∧
    matchesPattern (strOf "/api/") (strOf "/api/users/123") = true ∧
    matchesPattern (strOf "/api/users") (strOf "/api/products") = false ∧
    matchesPattern (strOf "/api/users/") (strOf "/api/users") = true := by
  refine ⟨?_, by decide, by decide, by decide⟩
  intro pattern path
  rw [matchesPattern_iff]
  rw [goHasSuf_iff, goHasPre_iff]

/-- C10: the health-check handler answers 200 with the exact JSON body
for every request — it never inspects the method — and the dispatcher
forwards any request whose path is exactly /health to the mux, for every
method. -/
theorem C10_health_ignores_method :
    (∀ r : Request, healthHandler r =
      { status := 200,
        headers := [(strOf "Content-Type", strOf "application/json")],
        body := strOf "\x7b\"status\":\"healthy\",\"service\":\"blandmockapi\"\x7d" }) ∧
    (∀ (rt : Router) (r : Request), r.path = strOf "/health" →
      routerHandler rt r = DispatchOutcome.toMux) := by
  constructor
  · intro r
    rfl
  · intro rt r hp
    unfold routerHandler findMatchingPattern
    rw [if_pos hp]
    rw [if_pos (show strOf "/health" ≠ [] by decide)]

theorem C10_health_ignores_method_witness :
    healthHandler ⟨strOf "DELETE", strOf "/health", [], []⟩ =
      { status := 200,
        headers := [(strOf "Content-Type", strOf "application/json")],
        body := strOf "\x7b\"status\":\"healthy\",\"service\":\"blandmockapi\"\x7d" } ∧
    routerHandler Router.new ⟨strOf "DELETE", strOf "/health", [], []⟩ =
      DispatchOutcome.toMux :=
  ⟨C10_health_ignores_method.1 ⟨strOf "DELETE", strOf "/health", [], []⟩,
    C10_health_ignores_method.2 Router.new ⟨strOf "DELETE", strOf "/health", [], []⟩ rfl⟩

/-- C3 counterexample: the claim says every configured status ≤ 0 is
defaulted to 200, but the handler only tests for 0 — a configured status
of -1 is written as-is. -/
theorem C3_counterexample :
    negStatusEndpoint.status = -1 ∧ negStatusEndpoint.status ≤ 0 ∧
    (endpointHandler noJson unitMarshal negStatusEndpoint getNegReq).status = -1 ∧
    (endpointHandler noJson unitMarshal negStatusEndpoint getNegReq).status ≠ 200 := by
  refine ⟨rfl, by decide, rfl, by decide⟩

/-- C3 amended: the written status is 200 exactly when the configured
status equals 0 (the unset TOML zero value); every nonzero configured
status — positive or negative — is written unchanged. -/
theorem C3_amended_status_default {J : Type} (parse : Str → Option J) (marshal : J → Str)
    (ep : EndpointConfig) (r : Request) :
    (endpointHandler parse marshal ep r).status =
      (if ep.status = 0 then 200 else ep.status) := rfl

theorem findMatchingPattern_eq_nil_iff (rt : Router) (r : Request)
    (hg : rt.hasGraphQL = true → rt.graphqlPath ≠ [])
    (he : ∀ ep ∈ rt.endpoints, ep.path ≠ []) :
    findMatchingPattern rt r = [] ↔
      (r.path ≠ strOf "/health" ∧
       ¬(rt.hasGraphQL = true ∧ r.path = rt.graphqlPath) ∧
       ∀ ep ∈ rt.endpoints, matchesPattern ep.path r.path = false) := by
  unfold findMatchingPattern
  by_cases h1 : r.path = strOf "/health"
  · rw [if_pos h1]
    constructor
    · intro h
      exact absurd h (by decide)
    · rintro ⟨hc, _, _⟩
      exact absurd h1 hc
  · rw [if_neg h1]
    by_cases h2 : rt.hasGraphQL = true ∧ r.path = rt.graphqlPath
    · have hb : (rt.hasGraphQL && r.path == rt.graphqlPath) = true := by
        rw [h2.1, h2.2]
        simp
      rw [if_pos hb]
      constructor
      · intro h
        exact absurd h (hg h2.1)
      · rintro ⟨_, hc, _⟩
        exact absurd h2 hc
    · have hb : (rt.hasGraphQL && r.path == rt.graphqlPath) = false := by
        cases hA : rt.hasGraphQL with
        | false => simp
        | true =>
          cases hB : (r.path == rt.graphqlPath) with
          | false => simp
          | true => exact absurd ⟨hA, by simpa using hB⟩ h2
      rw [if_neg (by simp [hb])]
      cases hf : rt.endpoints.find? (fun ep => matchesPattern ep.path r.path) with
      | some ep =>
        simp only []
        constructor
        · intro h
          exact absurd h (he ep (List.mem_of_find?_eq_some hf))
        · rintro ⟨_, _, hall⟩
          have := List.find?_some hf
          have := hall ep (List.mem_of_find?_eq_some hf)
          simp_all
      | none =>
        simp only []
        constructor
        · intro _
          refine ⟨h1, h2, ?_⟩
          intro ep hep
          have := List.find?_eq_none.mp hf ep hep
          simpa using this
        · intro _
          trivial

/-- C1 counterexample: the claim routes the health-check path through
the PatternMatcher, but the dispatcher compares it by exact equality
only — a request for /health/ matches the pattern /health under
matchesPattern (trailing-slash rule), yet the dispatcher answers 404,
naming the unmatched path and method. -/
theorem C1_counterexample :
    matchesPattern (strOf "/health") (strOf "/health/") = true ∧
    routerHandler Router.new healthSlashReq =
      DispatchOutcome.notFound (notFoundHandler healthSlashReq) ∧
    (notFoundHandler healthSlashReq).status = 404 ∧
    (notFoundHandler healthSlashReq).body =
      strOf "\x7b\"error\":\"endpoint not found\",\"path\":\"/health/\",\"method\":\"GET\"\x7d" := by
  refine ⟨by decide, by decide, rfl, by decide⟩

/-- C1 amended: the dispatcher checks the built-in health path and then
the GraphQL path (when enabled) by exact string equality — not via the
PatternMatcher — and only then scans the registered endpoint paths in
registration order with the PatternMatcher, taking the first match; when
nothing matches it answers 404 with the JSON body naming the unmatched
path and method, and when something matches it hands the request to the
wrapped ServeMux, whose own precedence rules (not registration order)
pick the handler.  The hypotheses are the registration invariants: a
registered GraphQL path and registered endpoint paths are non-empty. -/
theorem C1_dispatch_first_match (rt : Router) (r : Request)
    (hg : rt.hasGraphQL = true → rt.graphqlPath ≠ [])
    (he : ∀ ep ∈ rt.endpoints, ep.path ≠ []) :
    (routerHandler rt r = DispatchOutcome.notFound
        { status := 404,
          headers := [(strOf "Content-Type", strOf "application/json")],
          body := notFoundBody r.path r.method } ↔
      (r.path ≠ strOf "/health" ∧
       ¬(rt.hasGraphQL = true ∧ r.path = rt.graphqlPath) ∧
       ∀ ep ∈ rt.endpoints, matchesPattern ep.path r.path = false)) ∧
    (r.path ≠ strOf "/health" → ¬(rt.hasGraphQL = true ∧ r.path = rt.graphqlPath) →
      findMatchingPattern rt r =
        ((rt.endpoints.find? (fun ep => matchesPattern ep.path r.path)).map
          (fun ep => ep.path)).getD []) := by
  constructor
  · unfold routerHandler
    by_cases hnil : findMatchingPattern rt r = []
    · rw [if_neg (by simpa using hnil)]
      constructor
      · intro _
        exact (findMatchingPattern_eq_nil_iff rt r hg he).mp hnil
      · intro _
        rfl
    · rw [if_pos (by simpa using hnil)]
      constructor
      · intro h
        cases h
      · intro h
        exact absurd ((findMatchingPattern_eq_nil_iff rt r hg he).mpr h) hnil
  · intro h1 h2
    unfold findMatchingPattern
    rw [if_neg h1]
    have hb : (rt.hasGraphQL && r.path == rt.graphqlPath) = false := by
      cases hA : rt.hasGraphQL with
      | false => simp
      | true =>
        cases hB : (r.path == rt.graphqlPath) with
        | false => simp
        | true => exact absurd ⟨hA, by simpa using hB⟩ h2
    rw [if_neg (by simp [hb])]
    cases hf : rt.endpoints.find? (fun ep => matchesPattern ep.path r.path) with
    | some ep => rfl
    | none => rfl

theorem C1_dispatch_first_match_witness :
    (routerHandler Router.new ⟨strOf "GET", strOf "/nope", [], []⟩ =
        DispatchOutcome.notFound
          { status := 404,
            headers := [(strOf "Content-Type", strOf "application/json")],
            body := notFoundBody (strOf "/nope") (strOf "GET") } ↔
      ((strOf "/nope") ≠ strOf "/health" ∧
       ¬(Router.new.hasGraphQL = true ∧ (strOf "/nope") = Router.new.graphqlPath) ∧
       ∀ ep ∈ Router.new.endpoints, matchesPattern ep.path (strOf "/nope") = false)) ∧
    ((strOf "/nope") ≠ strOf "/health" →
      ¬(Router.new.hasGraphQL = true ∧ (strOf "/nope") = Router.new.graphqlPath) →
      findMatchingPattern Router.new ⟨strOf "GET", strOf "/nope", [], []⟩ =
        ((Router.new.endpoints.find?
            (fun ep => matchesPattern ep.path (strOf "/nope"))).map
          (fun ep => ep.path)).getD []) :=
  C1_dispatch_first_match Router.new ⟨strOf "GET", strOf "/nope", [], []⟩
    (by decide) (by decide)

theorem resolveType_isSome (types : List (Str × GType)) (name : Str) :
    (resolveType types name).isSome = true := by
  unfold resolveType
  split
  · rfl
  · split
    · split
      · rfl
      · rfl
    · rfl

theorem buildQueryField_no_warning (types : List (Str × GType)) (q : GraphQLQuery) :
    (buildQueryField types q).2 = [] := by
  unfold buildQueryField
  cases hf : resolveType types q.returnType with
  | some t => rfl
  | none =>
    have hs := resolveType_isSome types q.returnType
    rw [hf] at hs
    simp at hs

theorem buildMutationField_no_warning (types : List (Str × GType)) (m : GraphQLMutation) :
    (buildMutationField types m).2 = [] := by
  unfold buildMutationField
  cases hf : resolveType types m.returnType with
  | some t => rfl
  | none =>
    have hs := resolveType_isSome types m.returnType
    rw [hf] at hs
    simp at hs

theorem qfold_no_warning (types : List (Str × GType)) (qs : List GraphQLQuery)
    (acc : List (Str × BuiltField) × List Str) :
    (qs.foldl (qStep types) acc).2 = acc.2 := by
  induction qs generalizing acc with
  | nil => rfl
  | cons q rest ih =>
    rw [List.foldl_cons, ih]
    simp [qStep, buildQueryField_no_warning]

theorem mfold_no_warning (types : List (Str × GType)) (ms : List GraphQLMutation)
    (acc : List (Str × BuiltField) × List Str) :
    (ms.foldl (mStep types) acc).2 = acc.2 := by
  induction ms generalizing acc with
  | nil => rfl
  | cons m rest ih =>
    rw [List.foldl_cons, ih]
    simp [mStep, buildMutationField_no_warning]

theorem buildSchema_no_warnings (cfg : GraphQLConfig) : (buildSchema cfg).warnings = [] := by
  unfold buildSchema
  simp only []
  rw [qfold_no_warning, mfold_no_warning]
  rfl

/-- C9 counterexample: the claim records a warning when an operation
return type is unknown, but the warning branch is unreachable — type
resolution always yields a type (the String fallback), so a
configuration whose only query returns the undeclared UnknownType
builds with an empty warning list. -/
theorem C9_counterexample :
    (buildSchema unknownCfg).warnings = [] ∧
    resolveType (buildTypes unknownCfg.types) (strOf "UnknownType") = some GType.string := by
  refine ⟨buildSchema_no_warnings unknownCfg, ?_⟩
  unfold resolveType
  rfl

/-- C9 amended: an unknown or unresolvable custom type name never causes
the schema build to fail — resolution always yields a type, with an
undeclared plain name degrading to the String kind via parseType — but
silently: the warning branch for operation return types is dead code and
the built schema's warning list is always empty. -/
theorem C9_unknown_type_degrades :
    (∀ (types : List (Str × GType)) (name : Str), (resolveType types name).isSome = true) ∧
    (∀ cfg : GraphQLConfig, (buildSchema cfg).warnings = []) ∧
    (∀ (types : List (Str × GType)) (name : Str), lookupA types name = none →
      ¬(name.length > 2 ∧ name.head? = some '[' ∧ name.getLast? = some ']') →
      resolveType types name = some (parseType name)) ∧
    parseType (strOf "UnknownType") = GType.string := by
  refine ⟨resolveType_isSome, buildSchema_no_warnings, ?_, rfl⟩
  intro types name hl hb
  unfold resolveType
  rw [hl, dif_neg hb]

/-- C2 evidence at the failing input: with GET and POST registered on
/api/users, a DELETE request is answered 405 with Allow set to
"GET, POST", but the body's allowed value is rendered by fmt %q applied
to the whole []string, which space-separates the quoted elements —
so the body is not the claimed JSON array (which would separate the
elements with commas). -/
theorem C2_method_not_allowed_body :
    (multiMethodHandler noJson unitMarshal rtUsers (strOf "/api/users") deleteUsersReq).status
        = 405 ∧
    getHeader
        (multiMethodHandler noJson unitMarshal rtUsers (strOf "/api/users")
          deleteUsersReq).headers (strOf "Allow") = strOf "GET, POST" ∧
    (multiMethodHandler noJson unitMarshal rtUsers (strOf "/api/users") deleteUsersReq).body =
      strOf "\x7b\"error\":\"method not allowed\",\"allowed\":[\"GET\" \"POST\"],\"received\":\"DELETE\"\x7d" ∧
    (multiMethodHandler noJson unitMarshal rtUsers (strOf "/api/users") deleteUsersReq).body ≠
      strOf "\x7b\"error\":\"method not allowed\",\"allowed\":[\"GET\",\"POST\"],\"received\":\"DELETE\"\x7d" := by
  refine ⟨by decide, by decide, by decide, by decide⟩

theorem lookupA_insertA_self {β : Type} (m : List (Str × β)) (k : Str) (v : β) :
    lookupA (insertA m k v) k = some v := by
  induction m with
  | nil => simp [insertA, lookupA]
  | cons p rest ih =>
    obtain ⟨pk, pv⟩ := p
    by_cases h : pk = k
    · simp [insertA, h, lookupA]
    · simp [insertA, h, lookupA, ih]

theorem lookupA_insertA_ne {β : Type} (m : List (Str × β)) (k k2 : Str) (v : β)
    (h : k2 ≠ k) : lookupA (insertA m k v) k2 = lookupA m k2 := by
  induction m with
  | nil =>
    simp only [insertA, lookupA]
    rw [if_neg (Ne.symm h)]
  | cons p rest ih =>
    obtain ⟨pk, pv⟩ := p
    by_cases hpk : pk = k
    · subst hpk
      simp only [insertA, if_pos rfl, lookupA]
      rw [if_neg (Ne.symm h), if_neg (Ne.symm h)]
    · simp only [insertA, if_neg hpk, lookupA]
      by_cases hp2 : pk = k2
      · rw [if_pos hp2, if_pos hp2]
      · rw [if_neg hp2, if_neg hp2]
        exact ih

/-- The value Router.RegisterEndpoint produces on a non-empty path,
written out: the normalized endpoint is stored under (path, method) on
top of whatever inner table the path already had, and appended to the
registration-order slice. -/
theorem registerEndpoint_ok (rt : Router) (ep : EndpointConfig) (h : ep.path ≠ []) :
    registerEndpoint rt ep = Except.ok
      { rt with
        pathMethods := insertA rt.pathMethods ep.path
          (insertA ((lookupA rt.pathMethods ep.path).getD []) (normMethod ep.method)
            { ep with method := normMethod ep.method }),
        endpoints := rt.endpoints ++ [{ ep with method := normMethod ep.method }] } := by
  unfold registerEndpoint
  rw [if_neg h]
  rfl

/-- C4: after registering ep1 and then ep2 on the same path, a re-used
(path, method) pair serves exactly the second descriptor, while a second
distinct method is added beside the first without replacing it. -/
theorem C4_register_overwrite {J : Type} (parse : Str → Option J) (marshal : J → Str)
    (rt : Router) (ep1 ep2 : EndpointConfig) (r : Request)
    (hpath : ep2.path = ep1.path) (hne : ep1.path ≠ []) :
    ∃ rt1 rt2 : Router,
      registerEndpoint rt ep1 = Except.ok rt1 ∧
      registerEndpoint rt1 ep2 = Except.ok rt2 ∧
      (normMethod ep2.method = normMethod ep1.method →
        r.method = normMethod ep2.method →
        multiMethodHandler parse marshal rt2 ep1.path r =
          endpointHandler parse marshal { ep2 with method := normMethod ep2.method } r) ∧
      (normMethod ep2.method ≠ normMethod ep1.method →
        lookupA ((lookupA rt2.pathMethods ep1.path).getD []) (normMethod ep1.method) =
          some { ep1 with method := normMethod ep1.method } ∧
        lookupA ((lookupA rt2.pathMethods ep1.path).getD []) (normMethod ep2.method) =
          some { ep2 with method := normMethod ep2.method }) := by
  have hne2 : ep2.path ≠ [] := by rw [hpath]; exact hne
  refine ⟨_, _, registerEndpoint_ok rt ep1 hne, registerEndpoint_ok _ ep2 hne2, ?_, ?_⟩
  · intro hmm hrm
    unfold multiMethodHandler
    dsimp only
    rw [hpath, lookupA_insertA_self]
    dsimp only
    rw [hrm, hmm]
    simp only [lookupA_insertA_self, Option.getD_some]
  · intro hmm
    dsimp only
    rw [hpath, lookupA_insertA_self]
    dsimp only [Option.getD_some]
    constructor
    · rw [lookupA_insertA_ne _ _ _ _ (Ne.symm hmm)]
      simp only [lookupA_insertA_self, Option.getD_some]
    · rw [lookupA_insertA_self]

theorem C4_register_overwrite_witness :
    ∃ rt1 rt2 : Router,
      registerEndpoint Router.new ep1w = Except.ok rt1 ∧
      registerEndpoint rt1 ep2w = Except.ok rt2 ∧
      (normMethod ep2w.method = normMethod ep1w.method →
        getWReq.method = normMethod ep2w.method →
        multiMethodHandler noJson unitMarshal rt2 ep1w.path getWReq =
          endpointHandler noJson unitMarshal { ep2w with method := normMethod ep2w.method }
            getWReq) ∧
      (normMethod ep2w.method ≠ normMethod ep1w.method →
        lookupA ((lookupA rt2.pathMethods ep1w.path).getD []) (normMethod ep1w.method) =
          some { ep1w with method := normMethod ep1w.method } ∧
        lookupA ((lookupA rt2.pathMethods ep1w.path).getD []) (normMethod ep2w.method) =
          some { ep2w with method := normMethod ep2w.method }) :=
  C4_register_overwrite noJson unitMarshal Router.new ep1w ep2w getWReq rfl (by decide)

theorem processResponse_codec_independent {J J2 : Type} (p1 : Str → Option J) (m1 : J → Str)
    (p2 : Str → Option J2) (m2 : J2 → Str) (resp : Str) (r : Request)
    (h : ¬(r.method = strOf "POST" ∨ r.method = strOf "PUT" ∨ r.method = strOf "PATCH")) :
    processResponse p1 m1 resp r = processResponse p2 m2 resp r := by
  unfold processResponse
  rw [if_neg h, if_neg h]

/-- C7: body templating substitutes each recognized token by sequential
replacement — for methods other than POST/PUT/PATCH the result never
depends on the request body or the JSON codec; the spec's scenario
renders as stated under any codec; a query token whose parameter is
absent and a body token outside body-carrying methods stay verbatim; a
POST body that fails to parse leaves the body token verbatim; a POST
body that parses is substituted re-serialized compactly; and a present
query parameter substitutes its first value. -/
theorem C7_response_templating :
    (∀ (J J2 : Type) (p1 : Str → Option J) (m1 : J → Str) (p2 : Str → Option J2)
        (m2 : J2 → Str) (resp : Str) (r : Request),
      ¬(r.method = strOf "POST" ∨ r.method = strOf "PUT" ∨ r.method = strOf "PATCH") →
      processResponse p1 m1 resp r = processResponse p2 m2 resp r) ∧
    (∀ (J : Type) (parse : Str → Option J) (marshal : J → Str),
      processResponse parse marshal scenarioTemplate scenarioReq = scenarioExpected) ∧
    processResponse noJson unitMarshal (strOf "\x7b\x7bquery.x\x7d\x7d & \x7b\x7bbody\x7d\x7d")
      ⟨strOf "GET", strOf "/t", [], []⟩ = strOf "\x7b\x7bquery.x\x7d\x7d & \x7b\x7bbody\x7d\x7d" ∧
    processResponse demoParse demoMarshal (strOf "b=\x7b\x7bbody\x7d\x7d")
      ⟨strOf "POST", strOf "/p", [], strOf "not json"⟩ = strOf "b=\x7b\x7bbody\x7d\x7d" ∧
    processResponse demoParse demoMarshal (strOf "b=\x7b\x7bbody\x7d\x7d")
      ⟨strOf "POST", strOf "/p", [], strOf "\x7b\"a\": 1\x7d"⟩ = strOf "b=\x7b\"a\":1\x7d" ∧
    processResponse noJson unitMarshal (strOf "x=\x7b\x7bquery.x\x7d\x7d")
      ⟨strOf "GET", strOf "/t", [(strOf "x", [strOf "1", strOf "2"])], []⟩ = strOf "x=1" := by
  refine ⟨fun J J2 p1 m1 p2 m2 resp r h => processResponse_codec_independent p1 m1 p2 m2 resp r h,
    ?_, ?_, ?_, ?_, ?_⟩
  · intro J parse marshal
    have heval : processResponse noJson unitMarshal scenarioTemplate scenarioReq =
        scenarioExpected := by
      simp [processResponse, replaceAll, strOf, goHasPre, scenarioTemplate, scenarioReq,
        scenarioExpected]
    exact (processResponse_codec_independent parse marshal noJson unitMarshal
      scenarioTemplate scenarioReq (by decide)).trans heval
  · simp [processResponse, replaceAll, strOf, goHasPre, noJson, unitMarshal]
  · simp [processResponse, replaceAll, strOf, goHasPre, demoParse, demoMarshal]
  · simp [processResponse, replaceAll, strOf, goHasPre, demoParse, demoMarshal]
  · simp [processResponse, replaceAll, strOf, goHasPre, noJson, unitMarshal]

theorem C7_response_templating_witness :
    processResponse demoParse demoMarshal scenarioTemplate scenarioReq =
      processResponse noJson unitMarshal scenarioTemplate scenarioReq ∧
    processResponse demoParse demoMarshal scenarioTemplate scenarioReq = scenarioExpected :=
  ⟨C7_response_templating.1 Str Unit demoParse demoMarshal noJson unitMarshal
      scenarioTemplate scenarioReq (by decide),
    C7_response_templating.2.1 Str demoParse demoMarshal⟩

theorem insertA_map_shape (k : Str) (v v' : BuiltField) (hv : shapeOf v = shapeOf v') :
    ∀ (m m' : List (Str × BuiltField)),
      m.map (fun p => (p.1, shapeOf p.2)) = m'.map (fun p => (p.1, shapeOf p.2)) →
      (insertA m k v).map (fun p => (p.1, shapeOf p.2)) =
        (insertA m' k v').map (fun p => (p.1, shapeOf p.2))
  | [], [], _ => by simp [insertA, hv]
  | [], q :: m', h => by simp at h
  | p :: m, [], h => by simp at h
  | p :: m, q :: m', h => by
    obtain ⟨pa, pb⟩ := p
    obtain ⟨qa, qb⟩ := q
    simp only [List.map_cons, List.cons.injEq, Prod.mk.injEq] at h
    obtain ⟨⟨hk, hs⟩, hrest⟩ := h
    by_cases hek : pa = k
    · simp only [insertA]
      rw [if_pos hek, if_pos (hk ▸ hek)]
      simp only [List.map_cons, List.cons.injEq, Prod.mk.injEq]
      exact ⟨⟨trivial, hv⟩, hrest⟩
    · simp only [insertA]
      rw [if_neg hek, if_neg (hk ▸ hek)]
      simp only [List.map_cons, List.cons.injEq, Prod.mk.injEq]
      exact ⟨⟨hk, hs⟩, insertA_map_shape k v v' hv m m' hrest⟩

theorem buildQueryField_shape (types : List (Str × GType)) (f : Str → Str) (q : GraphQLQuery) :
    shapeOf (buildQueryField types { q with response := f q.response }).1 =
      shapeOf (buildQueryField types q).1 := by
  unfold buildQueryField
  have hrt : ({ q with response := f q.response } : GraphQLQuery).returnType = q.returnType := rfl
  rw [hrt]
  cases hr : resolveType types q.returnType <;> rfl

theorem buildMutationField_shape (types : List (Str × GType)) (f : Str → Str)
    (m : GraphQLMutation) :
    shapeOf (buildMutationField types { m with response := f m.response }).1 =
      shapeOf (buildMutationField types m).1 := by
  unfold buildMutationField
  have hrt : ({ m with response := f m.response } : GraphQLMutation).returnType = m.returnType := rfl
  rw [hrt]
  cases hr : resolveType types m.returnType <;> rfl

theorem qfold_shape (types : List (Str × GType)) (f : Str → Str) :
    ∀ (qs : List GraphQLQuery) (acc acc' : List (Str × BuiltField) × List Str),
      acc.1.map (fun p => (p.1, shapeOf p.2)) = acc'.1.map (fun p => (p.1, shapeOf p.2)) →
      ((qs.map (fun q => { q with response := f q.response })).foldl (qStep types) acc).1.map
          (fun p => (p.1, shapeOf p.2)) =
        (qs.foldl (qStep types) acc').1.map (fun p => (p.1, shapeOf p.2))
  | [], _, _, h => h
  | q :: rest, acc, acc', h => by
    rw [List.map_cons, List.foldl_cons, List.foldl_cons]
    apply qfold_shape types f rest
    exact insertA_map_shape q.name _ _ (buildQueryField_shape types f q) acc.1 acc'.1 h

theorem mfold_shape (types : List (Str × GType)) (f : Str → Str) :
    ∀ (ms : List GraphQLMutation) (acc acc' : List (Str × BuiltField) × List Str),
      acc.1.map (fun p => (p.1, shapeOf p.2)) = acc'.1.map (fun p => (p.1, shapeOf p.2)) →
      ((ms.map (fun m => { m with response := f m.response })).foldl (mStep types) acc).1.map
          (fun p => (p.1, shapeOf p.2)) =
        (ms.foldl (mStep types) acc').1.map (fun p => (p.1, shapeOf p.2))
  | [], _, _, h => h
  | m :: rest, acc, acc', h => by
    rw [List.map_cons, List.foldl_cons, List.foldl_cons]
    apply mfold_shape types f rest
    exact insertA_map_shape m.name _ _ (buildMutationField_shape types f m) acc.1 acc'.1 h

theorem schemaShape_response_independent (f : Str → Str) (cfg : GraphQLConfig) :
    schemaShape (buildSchema (mapResponses f cfg)) = schemaShape (buildSchema cfg) := by
  have h1 : (mapResponses f cfg).types = cfg.types := rfl
  have h2 : (mapResponses f cfg).queries =
      cfg.queries.map (fun q => { q with response := f q.response }) := rfl
  have h3 : (mapResponses f cfg).mutations =
      cfg.mutations.map (fun m => { m with response := f m.response }) := rfl
  unfold schemaShape buildSchema
  rw [h1, h2, h3]
  simp only [Prod.mk.injEq]
  refine ⟨trivial, ?_, ?_⟩
  · exact qfold_shape (buildTypes cfg.types) f cfg.queries _ _ rfl
  · by_cases hm : cfg.mutations.length > 0
    · rw [if_pos (by simpa using hm), if_pos hm]
      simp only [Option.map_some']
      exact congrArg some (mfold_shape (buildTypes cfg.types) f cfg.mutations _ _ rfl)
    · rw [if_neg (by simpa using hm), if_neg hm]

/-- C8: every resolver parses its stored payload lazily at each
invocation — valid JSON returns the parsed value unmodified regardless
of the supplied arguments, invalid JSON yields a resolver error (which
the engine surfaces as a per-field entry in the errors array of its
result envelope) — while ServeHTTP writes status 200 for whatever
envelope the engine returns on a well-formed POST, and the schema build
outcome (its shape, which is all the engine's validation sees) is
independent of the stored response payloads. -/
theorem C8_lazy_resolver :
    (∀ (J : Type) (parse : Str → Option J) (payload : Str) (v : J)
        (a1 a2 : List (Str × J)), parse payload = some v →
      createResolver parse payload a1 = Except.ok v ∧
      createResolver parse payload a1 = createResolver parse payload a2) ∧
    (∀ (J : Type) (parse : Str → Option J) (payload : Str) (a : List (Str × J)),
      parse payload = none →
      createResolver parse payload a = Except.error (strOf "invalid response JSON")) ∧
    (∀ (decodeBody : Str → Option GQLParams) (run : GQLParams → GQLResult)
        (encode : GQLResult → Str) (r : Request) (p : GQLParams),
      r.method = strOf "POST" → decodeBody r.body = some p →
      (serveGraphQL decodeBody run encode r).status = 200 ∧
      (serveGraphQL decodeBody run encode r).body = encode (run p)) ∧
    (∀ (f : Str → Str) (cfg : GraphQLConfig),
      schemaShape (buildSchema (mapResponses f cfg)) = schemaShape (buildSchema cfg)) := by
  refine ⟨?_, ?_, ?_, schemaShape_response_independent⟩
  · intro J parse payload v a1 a2 h
    constructor
    · unfold createResolver
      rw [h]
    · rfl
  · intro J parse payload a h
    unfold createResolver
    rw [h]
  · intro decodeBody run encode r p hm hb
    unfold serveGraphQL
    rw [hm, if_neg (by simp), hb]
    exact ⟨rfl, rfl⟩

theorem C8_lazy_resolver_witness :
    (createResolver demoParse (strOf "\x7b\"a\": 1\x7d") [] =
        Except.ok (strOf "\x7b\"a\":1\x7d") ∧
      createResolver demoParse (strOf "\x7b\"a\": 1\x7d") [] =
        createResolver demoParse (strOf "\x7b\"a\": 1\x7d") [(strOf "id", strOf "7")]) ∧
    createResolver demoParse (strOf "not json") [] =
      Except.error (strOf "invalid response JSON") ∧
    (serveGraphQL (fun _ => some ⟨[], [], []⟩) (fun _ => ⟨strOf "null", []⟩)
        (fun res => res.dataJSON) ⟨strOf "POST", strOf "/graphql", [], []⟩).status = 200 ∧
    schemaShape (buildSchema (mapResponses (fun _ => strOf "oops") unknownCfg)) =
      schemaShape (buildSchema unknownCfg) :=
  ⟨C8_lazy_resolver.1 Str demoParse (strOf "\x7b\"a\": 1\x7d") (strOf "\x7b\"a\":1\x7d")
      [] [(strOf "id", strOf "7")] (by decide),
   C8_lazy_resolver.2.1 Str demoParse (strOf "not json") [] (by decide),
   (C8_lazy_resolver.2.2.1 (fun _ => some ⟨[], [], []⟩) (fun _ => ⟨strOf "null", []⟩)
      (fun res => res.dataJSON) ⟨strOf "POST", strOf "/graphql", [], []⟩ ⟨[], [], []⟩
      rfl rfl).1,
   C8_lazy_resolver.2.2.2 (fun _ => strOf "oops") unknownCfg⟩

theorem C9_unknown_type_degrades_witness :
    (resolveType [] (strOf "Foo")).isSome = true ∧
    (buildSchema unknownCfg).warnings = [] ∧
    resolveType [] (strOf "Foo") = some (parseType (strOf "Foo")) :=
  ⟨C9_unknown_type_degrades.1 [] (strOf "Foo"),
   C9_unknown_type_degrades.2.1 unknownCfg,
   C9_unknown_type_degrades.2.2.1 [] (strOf "Foo") rfl (by decide)⟩

end BlandMock
